import Mathlib

/-!
Verification of the hierarchical compression engine (chunker, extractive
summarizer, aggregator, report builder).

Python strings are modelled as Lean `String` values manipulated through their
character lists; Python `float` arithmetic is modelled exactly over `ℚ`;
Python integer division by zero (`ZeroDivisionError`) is modelled by `Option`
where the source lacks a guard.  Regex searches are modelled as word-level
predicates over the case-folded token stream; wall-clock timing fields and the
free-form `explainability` string maps are not modelled, since no stated
property concerns them.
-/

namespace DataForge

/-! ## Character and token primitives (Python `str.split`, `re.findall(r'\w+')`) -/

/-- Generic maximal-run tokenizer: `sep` marks separator characters.
With `sep = Char.isWhitespace` this is Python `str.split()`;
with `sep c = !(isWordChar c)` on lowercased text it is `re.findall` of
word characters. -/
def tokensAux (sep : Char → Bool) : List Char → List Char → List (List Char)
  | acc, [] => if acc.isEmpty then [] else [acc.reverse]
  | acc, c :: cs =>
    if sep c then
      if acc.isEmpty then tokensAux sep [] cs
      else acc.reverse :: tokensAux sep [] cs
    else tokensAux sep (c :: acc) cs

def wsSep : Char → Bool := Char.isWhitespace

/-- Python `text.split()` (whitespace tokenization, empty tokens dropped). -/
def pyWords (s : String) : List String :=
  (tokensAux wsSep [] s.data).map String.mk

/-- Word count, Python `len(text.split())`. -/
def wordCount (s : String) : Nat := (tokensAux wsSep [] s.data).length

def isWordChar (c : Char) : Bool := c.isAlphanum || c = '_'

def lowerChars (s : String) : List Char := s.data.map Char.toLower

/-- Lowercased word tokens, `re.findall` of word runs over `text.lower()`. -/
def lowerTokens (s : String) : List String :=
  (tokensAux (fun c => !(isWordChar c)) [] (lowerChars s)).map String.mk

/-- Word tokens of the text with original casing (`re.findall(r'\w+', text)`). -/
def rawTokens (s : String) : List String :=
  (tokensAux (fun c => !(isWordChar c)) [] s.data).map String.mk

/-- Python `str.strip()`. -/
def pyStrip (s : String) : String :=
  String.mk (((s.data.dropWhile Char.isWhitespace).reverse.dropWhile Char.isWhitespace).reverse)

/-- Python slice `text[a:b]` (for `a ≤ b`; out-of-range indices are clamped). -/
def strSlice (s : String) (a b : Nat) : String :=
  String.mk ((s.data.drop a).take (b - a))

/-- Substring containment, Python `needle in hay`. -/
def strContains (hay needle : String) : Bool :=
  (List.range (hay.data.length + 1)).any (fun i => needle.data.isPrefixOf (hay.data.drop i))

/-- Python `hay.find(needle)`: index of first occurrence, `-1` when absent. -/
def findSubAux (needle : List Char) : List Char → Option Nat
  | [] => if needle.isPrefixOf ([] : List Char) then some 0 else none
  | c :: t =>
    if needle.isPrefixOf (c :: t) then some 0
    else (findSubAux needle t).map (· + 1)

def strFind (hay needle : String) : Int :=
  match findSubAux needle.data hay.data with
  | some n => (n : Int)
  | none => -1

def strStartsWith (s pre : String) : Bool := pre.data.isPrefixOf s.data

def strEndsWith (s suf : String) : Bool := suf.data.isSuffixOf s.data

/-- Keep the first occurrence of each element (models building a de-duplicated
list by membership checks, as the source does for contexts; Python `set`
iteration order is modelled as first-occurrence order). -/
def dedupKeepFirst [DecidableEq α] : List α → List α
  | [] => []
  | x :: t => x :: (dedupKeepFirst (t.filter (· ≠ x)))
termination_by l => l.length
decreasing_by
  simp only [List.length_cons]
  exact Nat.lt_succ_of_le (List.length_filter_le _ t)

/-- Contiguous-sublist test on token lists (used for multi-word patterns). -/
def listInfix (pat l : List String) : Bool :=
  (List.range (l.length + 1)).any (fun i => pat.isPrefixOf (l.drop i))

/-! ## Sentence splitting: `re.split(r'(?<=[.!?])\s+', text)`
This is the single-backslash reading of the separator; the source writes
the pattern with a doubled backslash (`r'(?<=[.!?])\\s+'`, line 340), and
that literal behaviour is modelled separately further below.  The claims
proved with this reading are bounds that hold for any splitter. -/

def sentEndPrev : List Char → Bool
  | [] => false
  | p :: _ => p = '.' || p = '!' || p = '?'

def sentSplitAux : List Char → List Char → List (List Char)
  | acc, [] => [acc.reverse]
  | acc, c :: cs =>
    if c.isWhitespace && sentEndPrev acc then
      acc.reverse :: sentSplitAux [] (cs.dropWhile Char.isWhitespace)
    else sentSplitAux (c :: acc) cs
termination_by _ l => l.length
decreasing_by
  · simp only [List.length_cons]
    have hle : ∀ (l : List Char), (l.dropWhile Char.isWhitespace).length ≤ l.length := by
      intro l
      induction l with
      | nil => simp
      | cons d ds ih =>
        by_cases h : d.isWhitespace = true
        · simp only [List.dropWhile_cons, h, if_true]
          exact Nat.le_succ_of_le ih
        · simp [List.dropWhile_cons, h]
    exact Nat.lt_succ_of_le (hle cs)
  · simp

/-- Sentence list of a text: pieces between whitespace runs that follow
end-of-sentence punctuation (the whitespace is consumed). -/
def sentSplit (s : String) : List String :=
  (sentSplitAux [] s.data).map String.mk

/-! ## Joining: `" ".join(xs)` and `". ".join(xs)` -/

def joinWithList (sep : List Char) : List (List Char) → List Char
  | [] => []
  | [x] => x
  | x :: y :: t => x ++ sep ++ joinWithList sep (y :: t)

def joinSpace (xs : List String) : String :=
  String.mk (joinWithList [' '] (xs.map String.data))

def joinDotSpace (xs : List String) : String :=
  String.mk (joinWithList ['.', ' '] (xs.map String.data))

/-- Word-count of a list of characters. -/
def wcList (l : List Char) : Nat := (tokensAux wsSep [] l).length

/-! ## Stable sorting (Python `list.sort(key=...)` is stable) -/

/-- Insert `a` after every element `b` with `canStay b a = true`
(i.e. after every element that may keep its place before `a`). -/
def insSorted (canStay : α → α → Bool) (a : α) : List α → List α
  | [] => [a]
  | b :: t => if canStay b a then b :: insSorted canStay a t else a :: b :: t

/-- Stable sort: elements are inserted left-to-right, each after all earlier
elements that compare `canStay`; ties therefore keep their original order,
matching Python's stable `sort`. -/
def stableSortBy (canStay : α → α → Bool) (l : List α) : List α :=
  l.foldl (fun acc x => insSorted canStay x acc) []

/-! ## Summarizer critical patterns
(`EnhancedAISummarizer.critical_patterns`, five entries in table order:
number, date, exception, risk, threshold).  The source doubles every
backslash in these regex literals (lines 63-67); the definitions here
follow the single-backslash reading the spec describes, under which
word-boundary searches are modelled over the case-folded word-token
stream.  The literal doubled-backslash behaviour is modelled separately
further below; the claims proved with this reading are bounds that hold
for either behaviour. -/

def isAllDigits (t : String) : Bool := !t.data.isEmpty && t.data.all Char.isDigit

/-- Pattern `number`: a word-bounded digit run, optionally decimal / unit-suffixed;
since the unit suffix is optional in the regex, the search succeeds exactly
when the text has a standalone number token. -/
def patNumber (s : String) : Bool := (lowerTokens s).any isAllDigits

def monthPrefixes : List String :=
  ["jan", "feb", "mar", "apr", "may", "jun", "jul", "aug", "sep", "oct", "nov", "dec"]

def isMonthToken (t : String) : Bool := monthPrefixes.any (fun m => strStartsWith t m)

def isDayNum (t : String) : Bool :=
  isAllDigits t && (t.data.length = 1 || t.data.length = 2)

def isYear4 (t : String) : Bool := isAllDigits t && t.data.length = 4

/-- Month-name date (month token, 1-2 digit day, 4 digit year) over consecutive tokens. -/
def monthDateScan : List String → Bool
  | m :: d :: y :: rest =>
    (isMonthToken m && isDayNum d && isYear4 y) || monthDateScan (d :: y :: rest)
  | _ => false

/-- Numeric date: 1-2 digits, slash or dash, 1-2 digits, slash or dash, 2-4 digits, anchored at the current position. -/
def matchSlashDate (l : List Char) : Bool :=
  let ds1 := l.takeWhile Char.isDigit
  let r1 := l.dropWhile Char.isDigit
  (ds1.length = 1 || ds1.length = 2) &&
    match r1 with
    | s1 :: r2 =>
      (s1 = '/' || s1 = '-') &&
        (let ds2 := r2.takeWhile Char.isDigit
         let r3 := r2.dropWhile Char.isDigit
         (ds2.length = 1 || ds2.length = 2) &&
           match r3 with
           | s2 :: r4 =>
             (s2 = '/' || s2 = '-') && 2 ≤ (r4.takeWhile Char.isDigit).length
           | [] => false)
    | [] => false

def slashDateScan : List Char → Bool
  | [] => false
  | c :: rest => matchSlashDate (c :: rest) || slashDateScan rest

/-- Pattern `date`: numeric `d/m/y`-style date anywhere, or month-name date. -/
def patDate (s : String) : Bool :=
  slashDateScan s.data || monthDateScan (lowerTokens s)

def exceptionWords : List String :=
  ["exception", "unless", "except", "however", "but", "although"]

/-- Pattern `exception`: any of the whole words EXCEPTION, unless, except, however, but, although, or the phrase only-if (case-insensitive). -/
def patException (s : String) : Bool :=
  let ts := lowerTokens s
  ts.any exceptionWords.contains || listInfix ["only", "if"] ts

def riskWords : List String :=
  ["risk", "warning", "alert", "caution", "danger", "must", "required", "prohibited"]

/-- Pattern `risk`: any of the whole words RISK, WARNING, ALERT, CAUTION, DANGER, MUST, REQUIRED, PROHIBITED (case-insensitive). -/
def patRisk (s : String) : Bool := (lowerTokens s).any riskWords.contains

/-- Pattern `threshold`: minimum, maximum, threshold, limit, or the phrases at-least, at-most, no-more-than, no-less-than (case-insensitive). -/
def patThreshold (s : String) : Bool :=
  let ts := lowerTokens s
  ts.any (["minimum", "maximum", "threshold", "limit"].contains ·)
    || listInfix ["at", "least"] ts || listInfix ["at", "most"] ts
    || listInfix ["no", "more", "than"] ts || listInfix ["no", "less", "than"] ts

/-- The summarizer's `critical_patterns` table: five patterns, in the
dictionary's insertion order.  (There is no `contradiction` entry.) -/
def criticalPatterns : List (String → Bool) :=
  [patNumber, patDate, patException, patRisk, patThreshold]

/-! ## Extractive engine (`_extractive_summarize`) -/

/-- Python `int(x)` on a non-negative float: truncation (floor). -/
def ratFloorNat (q : ℚ) : Nat := q.floor.toNat

/-- Score of one sentence under the single-backslash reading of the token
and pattern regexes: the sum of its (case-folded) words' frequencies in
the whole text, tripled when any critical pattern matches the sentence.
The score computed by the doubled-backslash regexes as written is modelled
separately below. -/
def sentenceScore (textTokens : List String) (sent : String) : Nat :=
  let base := ((lowerTokens sent).map (fun w => textTokens.count w)).sum
  if criticalPatterns.any (fun p => p sent) then base * 3 else base

/-- Triples of sentence, score and word count, in sentence order. -/
def scoreSentences (text : String) : List (String × Nat × Nat) :=
  (sentSplit text).map (fun s => (s, sentenceScore (lowerTokens text) s, wordCount s))

/-- Stable descending sort of the score triples (Python `sort` with `reverse=True`). -/
def sortedScores (text : String) : List (String × Nat × Nat) :=
  stableSortBy (fun a b => Nat.ble b.2.1 a.2.1) (scoreSentences text)

/-- Stable sort of sentences by first occurrence in the text. -/
def byPosSort (text : String) (l : List String) : List String :=
  stableSortBy (fun a b => decide (strFind text a ≤ strFind text b)) l

/-- Greedy budgeted selection over the score-ranked sentences. -/
def selectSentences (text : String) (targetWords targetSentences : Nat) : List String :=
  (((sortedScores text).foldl
      (fun (st : List String × Nat) x =>
        if st.2 + x.2.2 ≤ targetWords ∧ st.1.length < targetSentences
        then (x.1 :: st.1, st.2 + x.2.2) else st)
      ([], 0)).1).reverse

/-- Fallback: hard top-25%-by-score selection. -/
def forcedSelection (text : String) : List String :=
  ((sortedScores text).take
      (max 1 (ratFloorNat (((sentSplit text).length : ℚ) * (25 / 100))))).map
    (fun x => x.1)

/-- Model of `_extractive_summarize` under the single-backslash reading of
its regexes (the literal doubled-backslash variant is modelled below).
Every claim proved about this function is an upper bound on its output
size that holds whatever the splitter and scorer return. -/
def extractiveSummarize (text : String) (r : ℚ) : String :=
  let sentences := sentSplit text
  if sentences.length ≤ 3 then text
  else
    let summary := joinSpace (byPosSort text
      (selectSentences text (ratFloorNat ((wordCount text : ℚ) * r))
        (max 1 (ratFloorNat ((sentences.length : ℚ) * r)))))
    if wordCount text ≤ wordCount summary then
      joinSpace (byPosSort text (forcedSelection text))
    else summary

/-! ## Critical-info extraction (`_extract_critical_info`) -/

/-- Strings returned by `findall` of the number pattern under the
single-backslash reading, modelled as the all-digit word tokens (original
casing; the optional unit suffix is dropped, which leaves the index of the
first occurrence unchanged).  As written, the doubled-backslash patterns
return no match on backslash-free text, so `_extract_critical_info` then
returns the empty list; the claims using this list are proved for every
value of it. -/
def numberMatches (s : String) : List String := (rawTokens s).filter isAllDigits

/-- Strings returned by `findall` of the date pattern, modelled as the
month-name tokens (a prefix of the true match, locating the same context). -/
def dateMatches (s : String) : List String :=
  (rawTokens s).filter (fun t => isMonthToken (String.mk (lowerChars t)))

/-- Keyword matches: tokens whose lowercase form is in the word list. -/
def keywordMatches (words : List String) (s : String) : List String :=
  (rawTokens s).filter (fun t => words.contains (String.mk (lowerChars t)))

def exceptionMatches (s : String) : List String :=
  keywordMatches exceptionWords s
    ++ (if listInfix ["only", "if"] (lowerTokens s) then ["only if"] else [])

def riskMatches (s : String) : List String := keywordMatches riskWords s

def thresholdMatches (s : String) : List String :=
  keywordMatches ["minimum", "maximum", "threshold", "limit"] s
    ++ (if listInfix ["at", "least"] (lowerTokens s) then ["at least"] else [])
    ++ (if listInfix ["at", "most"] (lowerTokens s) then ["at most"] else [])
    ++ (if listInfix ["no", "more", "than"] (lowerTokens s) then ["no more than"] else [])
    ++ (if listInfix ["no", "less", "than"] (lowerTokens s) then ["no less than"] else [])

/-- For every pattern's matches, collect the 50-characters-each-side context
of the first occurrence, de-duplicated, capped at 10 entries. -/
def extractCriticalInfo (text : String) : List String :=
  let allMatches : List (List String) :=
    [numberMatches text, dateMatches text, exceptionMatches text,
     riskMatches text, thresholdMatches text]
  let step := fun (critical : List String) (ms : List String) =>
    (dedupKeepFirst ms).foldl
      (fun crit m =>
        match findSubAux m.data text.data with
        | some idx =>
          let context := pyStrip (strSlice text (idx - 50) (idx + 50))
          if crit.contains context then crit else crit ++ [context]
        | none => crit)
      critical
  (allMatches.foldl step []).take 10

/-! ## Chunk summarizer (`summarize_chunk` and friends) -/

inductive Strategy
  | EXTRACTIVE
  | ABSTRACTIVE
  | HYBRID
  | CRITICAL_PRESERVING
deriving DecidableEq, Repr

/-- Payload of `Chunk.to_dict()` as consumed by the summarizer.
(The `source_range` pair is character-offset metadata, not modelled.) -/
structure ChunkDict where
  text : String
  chunk_id : Int
  page_number : Int
  chunk_type : String
  section_id : Option String
  contains_numbers : Bool
  contains_dates : Bool
  contains_exceptions : Bool
  contains_risks : Bool
  contains_contradictions : Bool
  header_level : Nat
deriving DecidableEq, Repr

/-- Model of `SummaryResult`.  The wall-clock `processing_time` and the
free-form `explainability` map are not modelled; `compression_ratio_q`
is the source's `compression_ratio` float, modelled exactly over ℚ. -/
structure SummaryResult where
  summary_text : String
  original_words : Nat
  summary_words : Nat
  compression_ratio_q : ℚ
  strategy : Strategy
  source_chunks : List Int
  source_pages : List Int
  confidence : ℚ
  preserved_critical : List String
  level : String
  section_id : Option String
deriving DecidableEq, Repr

/-- Numeric key terms of a snippet (`findall` of word-bounded digit runs). -/
def keyNumberTokens (info : String) : List String :=
  (rawTokens info).filter isAllDigits

/-- Model of `_calculate_confidence`: start at 0.5, adjust by compression
ratio band, add the preserved-critical fraction times 0.3, clamp to unit. -/
def calcConfidence (original summary : String) (critical_info : List String) : ℚ :=
  let ow := wordCount original
  let sw := wordCount summary
  let r : ℚ := if ow > 0 then (sw : ℚ) / (ow : ℚ) else 0
  let c : ℚ := 1 / 2
  let c := if 15 / 100 ≤ r ∧ r ≤ 4 / 10 then c + 3 / 10
    else if r > 1 / 2 then c - 1 / 5
    else if r < 1 / 10 then c + 1 / 10
    else c
  let preserved :=
    (critical_info.filter
      (fun info => (keyNumberTokens info).any (fun t => strContains summary t))).length
  let c := if critical_info ≠ [] then
      c + ((preserved : ℚ) / (critical_info.length : ℚ)) * (3 / 10)
    else c
  max 0 (min 1 c)

/-- Model of `_critical_preserving_summarize`. -/
def criticalPreservingSummarize (text : String) (critical_info : List String) : String :=
  let summary := extractiveSummarize text (4 / 10)
  let summary := (critical_info.take 3).foldl
    (fun s info =>
      if ¬ strContains s info ∧ 10 < info.data.length then s ++ " " ++ info else s)
    summary
  if (wordCount text : ℚ) * (8 / 10) < (wordCount summary : ℚ) then
    extractiveSummarize text (3 / 10)
  else summary

/-- Model of `summarize_chunk`.  `strat0` is the caller-supplied strategy
(`self.strategy` when none is passed); it is recorded in the pass-through
result but otherwise overridden by the forced-strategy logic.  The
ABSTRACTIVE dispatch arm is unreachable after forcing and its model falls
back to the extractive path, as the source itself does when the neural
model is unavailable. -/
def summarizeChunk (chunk : ChunkDict) (strat0 : Strategy) : SummaryResult :=
  let text := chunk.text
  let word_count := wordCount text
  if word_count < 50 then
    { summary_text := text
      original_words := word_count
      summary_words := word_count
      compression_ratio_q := 1
      strategy := strat0
      source_chunks := [chunk.chunk_id]
      source_pages := [chunk.page_number]
      confidence := 1
      preserved_critical := []
      level := "chunk"
      section_id := chunk.section_id }
  else
    let critical_info := extractCriticalInfo text
    let strat : Strategy :=
      if word_count < 200 then .EXTRACTIVE
      else if chunk.chunk_type = "critical" ∨ chunk.contains_exceptions then
        .CRITICAL_PRESERVING
      else .EXTRACTIVE
    let summary :=
      if strat = .EXTRACTIVE then extractiveSummarize text (35 / 100)
      else if strat = .CRITICAL_PRESERVING then
        criticalPreservingSummarize text critical_info
      else extractiveSummarize text (35 / 100)
    let summary :=
      if word_count ≤ wordCount summary then extractiveSummarize text (25 / 100)
      else summary
    { summary_text := summary
      original_words := word_count
      summary_words := wordCount summary
      compression_ratio_q :=
        if word_count > 0 then (wordCount summary : ℚ) / (word_count : ℚ) else 0
      strategy := strat
      source_chunks := [chunk.chunk_id]
      source_pages := [chunk.page_number]
      confidence := calcConfidence text summary critical_info
      preserved_critical := critical_info
      level := "chunk"
      section_id := chunk.section_id }

/-- Model of `summarize_chunks`: map `summarize_chunk` (with the instance
strategy, HYBRID in the pipeline) and relabel each result's level. -/
def summarizeChunks (chunks : List ChunkDict) (level : String) : List SummaryResult :=
  chunks.map (fun c => { summarizeChunk c Strategy.HYBRID with level := level })

/-- Model of `summarize_summaries`.  At section level (the pipeline's only
use) the document-length fallback branch is dead; its unguarded
`summary_words / original_words` division is modelled as ℚ division (the
source would raise there on an empty combined text, but the branch requires
`level == "document"`).  The aggregated explainability record is not
modelled; Python `set` order is modelled as first-occurrence order. -/
def summarizeSummaries (summaries : List SummaryResult) (level : String) : SummaryResult :=
  let combined := joinSpace (summaries.map (fun s => s.summary_text))
  let result := summarizeChunk
    { text := combined
      chunk_id := -1
      page_number := (match summaries with
        | s :: _ => s.source_pages.headD 0
        | [] => 0)
      chunk_type := "standard"
      section_id := none
      contains_numbers := false
      contains_dates := false
      contains_exceptions := false
      contains_risks := false
      contains_contradictions := false
      header_level := 0 }
    Strategy.HYBRID
  let result :=
    if level = "document" ∧ result.summary_words < 100 then
      let fb := extractiveSummarize combined (1 / 2)
      { result with
        summary_text := fb
        summary_words := wordCount fb
        compression_ratio_q := (wordCount fb : ℚ) / (result.original_words : ℚ) }
    else result
  { result with
    level := level
    source_chunks := summaries.filterMap (fun s => s.source_chunks.head?)
    source_pages := dedupKeepFirst ((summaries.map (fun s => s.source_pages)).flatten) }

/-! ## Chunker (`src/chunking/enhanced_chunker.py`) -/

inductive ChunkType
  | standard
  | critical
  | header
  | reference
deriving DecidableEq, Repr

/-- Model of `Chunk`.  The `parent_chunk_id` back-reference (set by the
`_link_chunks` pass) and the `source_range` character offsets are linkage
metadata with no stated property and are not modelled. -/
structure Chunk where
  chunk_id : Int
  text : String
  page_number : Int
  word_count : Nat
  chunk_type : ChunkType
  section_id : Option String
  contains_numbers : Bool
  contains_dates : Bool
  contains_exceptions : Bool
  contains_risks : Bool
  contains_contradictions : Bool
  header_level : Nat
deriving DecidableEq, Repr

def chunkTypeValue : ChunkType → String
  | .standard => "standard"
  | .critical => "critical"
  | .header => "header"
  | .reference => "reference"

/-- Model of `Chunk.to_dict()`. -/
def chunkToDict (c : Chunk) : ChunkDict :=
  { text := c.text
    chunk_id := c.chunk_id
    page_number := c.page_number
    chunk_type := chunkTypeValue c.chunk_type
    section_id := c.section_id
    contains_numbers := c.contains_numbers
    contains_dates := c.contains_dates
    contains_exceptions := c.contains_exceptions
    contains_risks := c.contains_risks
    contains_contradictions := c.contains_contradictions
    header_level := c.header_level }

structure ChunkerConfig where
  min_words : Nat
  max_words : Nat
  overlap_words : Nat
deriving DecidableEq, Repr

/-! ### Chunker pattern predicates (the chunker's own `patterns` table) -/

/-- Chunker `number` pattern: word-bounded digit run (no unit suffix). -/
def chunkerHasNumber (s : String) : Bool := (lowerTokens s).any isAllDigits

/-- Chunker `date` pattern: month-name date form. -/
def chunkerHasDate (s : String) : Bool := monthDateScan (lowerTokens s)

/-- Adjacent-token phrase: some consecutive pair satisfies both predicates. -/
def adjPair (p1 p2 : String → Bool) : List String → Bool
  | a :: b :: rest => (p1 a && p2 b) || adjPair p1 p2 (b :: rest)
  | _ => false

/-- Chunker `exception` pattern: EXCEPTION-prefixed word, the substring
unless, the phrase only-if, or a word ending in however (case-insensitive;
the alternation is word-bounded only at its outer ends in the source). -/
def chunkerHasException (s : String) : Bool :=
  let ts := lowerTokens s
  ts.any (fun t => strStartsWith t "exception" || strContains t "unless"
      || strEndsWith t "however")
    || adjPair (fun a => strEndsWith a "only") (fun b => strStartsWith b "if") ts

/-- Chunker `risk` pattern: RISK-prefixed word, the substrings WARNING,
ALERT, CAUTION, or a word ending in DANGER (case-insensitive). -/
def chunkerHasRisk (s : String) : Bool :=
  let ts := lowerTokens s
  ts.any (fun t => strStartsWith t "risk" || strContains t "warning"
    || strContains t "alert" || strContains t "caution" || strEndsWith t "danger")

/-- Chunker `contradiction` pattern: CONTRADICTION-prefixed word, the
substring CONFLICT, the literal vs-dot, or a word ending in versus
(case-insensitive). -/
def patContradiction (s : String) : Bool :=
  let ts := lowerTokens s
  ts.any (fun t => strStartsWith t "contradiction" || strContains t "conflict"
      || strEndsWith t "versus")
    || strContains (String.mk (lowerChars s)) "vs."

/-! ### Paragraph splitting (`_split_into_paragraphs`) -/

def digitsDotDigits (l : List Char) : Bool :=
  let ds := l.takeWhile Char.isDigit
  let r := l.dropWhile Char.isDigit
  !ds.isEmpty &&
    match r with
    | '.' :: r2 => !(r2.takeWhile Char.isDigit).isEmpty
    | _ => false

def startsWithHeaderMarker (l : List Char) : Bool :=
  "SECTION".data.isPrefixOf l || "APPENDIX".data.isPrefixOf l
    || "CHAPTER".data.isPrefixOf l || digitsDotDigits l

/-- Split on blank lines (a newline, whitespace, another newline — the match
extends to the last newline of the whitespace run) or on a newline directly
followed by a structural marker (SECTION, APPENDIX, CHAPTER, or a dotted
section number).  The first argument is the skipping state: inside a matched
blank-line whitespace run, `acc` holds the pending whitespace that follows
the run's last newline and so belongs to the next piece. -/
def paraSplitAux : Bool → List Char → List Char → List (List Char)
  | false, acc, [] => [acc.reverse]
  | false, acc, c :: rest =>
    if c = '\n' then
      if (rest.takeWhile Char.isWhitespace).any (fun w => w = '\n') then
        acc.reverse :: paraSplitAux true [] rest
      else if startsWithHeaderMarker rest then
        acc.reverse :: paraSplitAux false [] rest
      else paraSplitAux false (c :: acc) rest
    else paraSplitAux false (c :: acc) rest
  | true, acc, [] => [acc.reverse]
  | true, acc, c :: rest =>
    if c = '\n' then paraSplitAux true [] rest
    else if c.isWhitespace then paraSplitAux true (c :: acc) rest
    else paraSplitAux false (c :: acc) rest

/-- Model of `_split_into_paragraphs`: split, strip, keep pieces longer than
10 characters. -/
def splitParagraphs (s : String) : List String :=
  ((paraSplitAux false [] s.data).map (fun l => pyStrip (String.mk l))).filter
    (fun p => 10 < p.data.length)

/-! ### Header classification (`_classify_header`) -/

/-- Anchored match of SECTION, APPENDIX or CHAPTER (case-insensitive), one
or more whitespace, then the captured digit run. -/
def matchSectionHeaderNum (s : String) : Option String :=
  let l := lowerChars s
  let tryKw := fun (kw : List Char) =>
    if kw.isPrefixOf l then
      let r := l.drop kw.length
      let ws := r.takeWhile Char.isWhitespace
      let ds := (r.dropWhile Char.isWhitespace).takeWhile Char.isDigit
      if !ws.isEmpty && !ds.isEmpty then some (String.mk ds) else none
    else none
  match tryKw "section".data with
  | some d => some d
  | none =>
    match tryKw "appendix".data with
    | some d => some d
    | none => tryKw "chapter".data

/-- Anchored match of a dotted subsection number followed by whitespace;
the captured group is the dotted number itself. -/
def matchSubsectionNum (s : String) : Option String :=
  let l := s.data
  let d1 := l.takeWhile Char.isDigit
  let r1 := l.dropWhile Char.isDigit
  if d1.isEmpty then none
  else
    match r1 with
    | '.' :: r2 =>
      let d2 := r2.takeWhile Char.isDigit
      let r3 := r2.dropWhile Char.isDigit
      if d2.isEmpty then none
      else
        match r3 with
        | c :: _ => if c.isWhitespace then some (String.mk (d1 ++ '.' :: d2)) else none
        | [] => none
    | _ => none

/-- Python `str.isupper()`: at least one uppercase letter and no lowercase. -/
def pyIsUpper (s : String) : Bool :=
  s.data.any Char.isUpper && s.data.all (fun c => !c.isLower)

/-- Model of `_classify_header`: returns header level (0 = not a header)
and the captured section id, if any. -/
def classifyHeader (s : String) : Nat × Option String :=
  match matchSectionHeaderNum s with
  | some sid => (1, some sid)
  | none =>
    match matchSubsectionNum s with
    | some sid => (2, some sid)
    | none =>
      if pyIsUpper s && decide (10 < s.data.length) && decide (s.data.length < 150)
          && decide ((pyWords s).length < 15) then (2, none)
      else if strStartsWith s "# " && decide (s.data.length < 150) then (2, none)
      else if strStartsWith s "## " && decide (s.data.length < 150) then (3, none)
      else (0, none)

/-- Model of `_is_critical_content`. -/
def isCriticalContent (s : String) : Bool :=
  let has_keyword := chunkerHasException s || chunkerHasRisk s || patContradiction s
  let is_substantial := decide (15 < wordCount s)
  let lower := String.mk (lowerChars s)
  let has_specifics := s.data.any Char.isDigit || strContains lower "unless"
    || strContains lower "only if" || strContains lower "must"
    || strContains lower "required" || strContains lower "mandatory"
  has_keyword && is_substantial && has_specifics

/-- Model of `_get_overlap_text`: the trailing `overlap_words` words. -/
def overlapText (cfg : ChunkerConfig) (text : String) : String :=
  let ws := pyWords text
  if ws.length ≤ cfg.overlap_words then ""
  else joinSpace (ws.drop (ws.length - cfg.overlap_words))

/-- Model of `_create_chunk`. -/
def createChunk (cid : Int) (text : String) (pageNum : Int)
    (sectionId : Option String) (headerLevel : Nat) : Chunk :=
  let wc := wordCount text
  let ctype :=
    if headerLevel > 0 then ChunkType.header
    else if isCriticalContent text ∧ wc > 20 then ChunkType.critical
    else ChunkType.standard
  { chunk_id := cid
    text := pyStrip text
    page_number := pageNum
    word_count := wc
    chunk_type := ctype
    section_id := sectionId
    contains_numbers := chunkerHasNumber text
    contains_dates := chunkerHasDate text
    contains_exceptions := chunkerHasException text
    contains_risks := chunkerHasRisk text
    contains_contradictions := patContradiction text
    header_level := headerLevel }

/-! ### The page loop (`chunk_document`) -/

structure ChunkerAcc where
  chunks : List Chunk
  chunk_id : Int
  current_section : Option String
deriving DecidableEq, Repr

/-- One step of the paragraph loop.  The running value is the cross-paragraph
state together with the page-local `buffer` and `current_header_level`. -/
def processParagraph (cfg : ChunkerConfig) (pageNum : Int)
    (acc : ChunkerAcc × String × Nat) (para0 : String) : ChunkerAcc × String × Nat :=
  let st := acc.1
  let buffer := acc.2.1
  let chl := acc.2.2
  let para := pyStrip para0
  if para = "" then acc
  else
    let hl_sid := classifyHeader para
    let hl := hl_sid.1
    let st := if hl > 0 ∧ hl_sid.2.isSome then { st with current_section := hl_sid.2 } else st
    if hl > 0 then
      let st :=
        if buffer ≠ "" ∧ cfg.min_words ≤ wordCount buffer then
          { st with
            chunks := st.chunks
              ++ [createChunk st.chunk_id buffer pageNum st.current_section chl]
            chunk_id := st.chunk_id + 1 }
        else st
      if 20 < wordCount para then
        let c := { createChunk st.chunk_id para pageNum st.current_section hl with
          chunk_type := ChunkType.header }
        ({ st with chunks := st.chunks ++ [c], chunk_id := st.chunk_id + 1 }, "", hl)
      else (st, para, hl)
    else
      let test := if buffer ≠ "" then buffer ++ "\n" ++ para else para
      if cfg.max_words < wordCount test ∧ buffer ≠ "" ∧ isCriticalContent para = false then
        let st := { st with
          chunks := st.chunks
            ++ [createChunk st.chunk_id buffer pageNum st.current_section chl]
          chunk_id := st.chunk_id + 1 }
        let ov := overlapText cfg buffer
        (st, if ov ≠ "" then ov ++ "\n" ++ para else para, chl)
      else (st, test, chl)

structure PageD where
  page_number : Int
  text : String
deriving DecidableEq, Repr

/-- The paragraph loop of one page: `buffer` and `current_header_level`
start afresh for every page. -/
def pageInner (cfg : ChunkerConfig) (st : ChunkerAcc) (page : PageD) :
    ChunkerAcc × String × Nat :=
  (splitParagraphs page.text).foldl (processParagraph cfg page.page_number) (st, "", 0)

/-- The buffer left over when the paragraph loop of a page has finished. -/
def pageResidual (cfg : ChunkerConfig) (st : ChunkerAcc) (page : PageD) : String :=
  (pageInner cfg st page).2.1

/-- One page of `chunk_document`: run the paragraph loop, then flush the
remaining buffer as a chunk when it holds at least 30 words. -/
def processPage (cfg : ChunkerConfig) (st : ChunkerAcc) (page : PageD) :
    ChunkerAcc × String × Nat :=
  let r := pageInner cfg st page
  let st' := r.1
  let buf := r.2.1
  let hl := r.2.2
  if buf ≠ "" ∧ 30 ≤ wordCount buf then
    ({ st' with
        chunks := st'.chunks
          ++ [createChunk st'.chunk_id buf page.page_number st'.current_section hl]
        chunk_id := st'.chunk_id + 1 }, "", hl)
  else (st', buf, hl)

/-- Model of `chunk_document`.  The `_link_chunks` pass only assigns the
unmodelled `parent_chunk_id` back-references and is the identity here.
(On an empty page list the source would hit an unbound `buffer` at the final
flush; the model returns the empty chunk list.) -/
def chunkDocument (cfg : ChunkerConfig) (pages : List PageD) : List Chunk :=
  let start : ChunkerAcc × String × Nat × Int := (⟨[], 0, none⟩, "", 0, 0)
  let fin := pages.foldl
    (fun (acc : ChunkerAcc × String × Nat × Int) p =>
      let r := processPage cfg acc.1 p
      (r.1, r.2.1, r.2.2, p.page_number))
    start
  let st := fin.1
  let buf := fin.2.1
  let hl := fin.2.2.1
  let pn := fin.2.2.2
  if buf ≠ "" ∧ 30 ≤ wordCount buf then
    st.chunks ++ [createChunk st.chunk_id buf pn st.current_section hl]
  else st.chunks

/-! ## Compressor (`src/hierarchical_compressor.py`) -/

/-- Model of the local `DocSummary` dataclass of `_create_document_summary`.
The `source_chunks`, `source_pages`, `strategy`, `processing_time`,
`preserved_critical` and `explainability` fields are constant metadata with
no stated property and are not modelled. -/
structure DocSummary where
  summary_text : String
  summary_words : Nat
  original_words : Nat
  compression_ratio_q : ℚ
  confidence : ℚ
deriving DecidableEq, Repr

def mkDocSummary (t : String) (w o : Nat) : DocSummary :=
  { summary_text := t
    summary_words := w
    original_words := o
    compression_ratio_q := if o > 0 then (w : ℚ) / (o : ℚ) else 0
    confidence := 85 / 100 }

/-- The compress-branch extraction ratio:
`max(0.10, min(0.30, (max_length - 10) / original_word_count))`. -/
def docTargetRatioQ (origWC maxLength : Nat) : ℚ :=
  max (1 / 10) (min (3 / 10) (((maxLength : ℚ) - 10) / (origWC : ℚ)))

/-- The expansion loop of `_create_document_summary`: walk the section
summaries, appending the first dot-separated piece of each, subject to the
length guards; `break` is modelled by the `stopped` flag.  Arithmetic on
`max_length - 50` and `max_length - 20` is over ℤ, as in Python. -/
def expandParts (maxLength : Nat) (summary0 : String)
    (sectionSummaries : List SummaryResult) (sw0 : Nat) :
    List String × Nat :=
  let stF := sectionSummaries.foldl
    (fun (st : List String × Nat × Bool) sec =>
      if st.2.2 then st
      else if 200 ≤ st.2.1 ∨ (maxLength : ℤ) - 50 ≤ (st.2.1 : ℤ) then
        (st.1, st.2.1, true)
      else
        ((sec.summary_text.splitOn ".").take 1).foldl
          (fun (st2 : List String × Nat × Bool) sent0 =>
            let sent := pyStrip sent0
            if 20 < sent.data.length ∧ ¬ (strContains summary0 sent = true)
                ∧ (st2.2.1 : ℤ) + (wordCount sent : ℤ) ≤ (maxLength : ℤ) - 20 then
              (st2.1 ++ [sent], st2.2.1 + wordCount sent, st2.2.2)
            else st2)
          st)
    ([summary0], sw0, false)
  (stF.1, stF.2.1)

/-- The post-compression guard chain of `_create_document_summary`: hard
truncation when over budget, the expansion path for short results (followed
by the final re-truncation guard), pass-through otherwise. -/
def docSummaryGuards (sectionSummaries : List SummaryResult) (maxLength owc : Nat)
    (summary0 : String) : DocSummary :=
  let sw0 := wordCount summary0
  if maxLength < sw0 then
    let truncated := (pyWords summary0).take maxLength
    mkDocSummary (joinSpace truncated ++ "...") truncated.length owc
  else if sw0 < 150 ∧ sw0 < maxLength then
    let pc := expandParts maxLength summary0 sectionSummaries sw0
    let expanded0 := joinDotSpace pc.1
    let expanded :=
      if strEndsWith expanded0 "." then expanded0 else expanded0 ++ "."
    let sw2 := wordCount expanded
    if maxLength < sw2 then
      mkDocSummary (joinSpace ((pyWords expanded).take maxLength) ++ "...") maxLength owc
    else
      mkDocSummary expanded sw2 owc
  else
    mkDocSummary summary0 sw0 owc

/-- Model of `_create_document_summary` with its strict length enforcement:
pass-through when the combined text is under the budget and at least 150
words; otherwise extractive compression at ratio 0.9 (short) or the clamped
target ratio, followed by the guard chain. -/
def createDocumentSummary (sectionSummaries : List SummaryResult) (maxLength : Nat) :
    DocSummary :=
  let combined := joinSpace (sectionSummaries.map (fun s => s.summary_text))
  let owc := wordCount combined
  if owc ≤ maxLength ∧ 150 ≤ owc then
    mkDocSummary combined owc owc
  else
    let target_ratio_q : ℚ :=
      if owc ≤ maxLength then 9 / 10 else docTargetRatioQ owc maxLength
    docSummaryGuards sectionSummaries maxLength owc
      (extractiveSummarize combined target_ratio_q)

/-! ### Section aggregation (`_create_section_summaries`) -/

def defaultSummaryResult : SummaryResult :=
  { summary_text := ""
    original_words := 0
    summary_words := 0
    compression_ratio_q := 0
    strategy := .HYBRID
    source_chunks := []
    source_pages := []
    confidence := 0
    preserved_critical := []
    level := "chunk"
    section_id := none }

/-- Python `x or "uncategorized"`: both `None` and the empty string are
falsy. -/
def pyOrUncategorized : Option String → String
  | some s => if s = "" then "uncategorized" else s
  | none => "uncategorized"

/-- The `chunk_to_section` dictionary: built by iterating the chunks, later
entries overwriting earlier ones, read with default `"uncategorized"`. -/
def lookupSectionId (chunks : List Chunk) (cid : Int) : String :=
  match chunks.reverse.find? (fun c => c.chunk_id == cid) with
  | some c => pyOrUncategorized c.section_id
  | none => "uncategorized"

/-- Append an index to its key's group, keeping first-insertion key order
(Python `defaultdict` iteration order). -/
def addToGroup (gs : List (String × List Nat)) (k : String) (i : Nat) :
    List (String × List Nat) :=
  match gs with
  | [] => [(k, [i])]
  | (k', is0) :: t =>
    if k' = k then (k', is0 ++ [i]) :: t else (k', is0) :: addToGroup t k i

/-- Group the chunk summaries (as indices into the summary list) by the
section id of their first source chunk; summaries with no source chunks are
skipped, as in the source. -/
def sectionGroups (chunks : List Chunk) (cs : List SummaryResult) :
    List (String × List Nat) :=
  (cs.enum).foldl
    (fun gs p =>
      match p.2.source_chunks with
      | c0 :: _ => addToGroup gs (lookupSectionId chunks c0) p.1
      | [] => gs)
    []

/-- Process the section groups in order.  A single-member group reuses the
chunk summary object and assigns its `section_id` in place — modelled by
updating the shared heap (the chunk-summary list) — while a multi-member
group builds a fresh summary of the members.  Returns the section-summary
list together with the final heap. -/
def runGroups : List SummaryResult → List (String × List Nat) →
    List SummaryResult × List SummaryResult
  | heap, [] => ([], heap)
  | heap, (sid, idxs) :: gs =>
    match idxs with
    | [i] =>
      let s := heap.getD i defaultSummaryResult
      let s' := { s with section_id := some sid }
      let r := runGroups (heap.set i s') gs
      (s' :: r.1, r.2)
    | _ =>
      let members := idxs.filterMap (fun i => heap.get? i)
      let sec := { summarizeSummaries members "section" with section_id := some sid }
      let r := runGroups heap gs
      (sec :: r.1, r.2)

/-- Model of `_create_section_summaries`.  In the source the chunk-level
`SummaryResult` objects are aliased by `self.chunk_summaries`; the returned
second component is that list after the in-place `section_id` assignments. -/
def createSectionSummaries (chunks : List Chunk) (cs : List SummaryResult) :
    List SummaryResult × List SummaryResult :=
  runGroups cs (sectionGroups chunks cs)

/-! ### Quality metrics and report ratios -/

/-- The criticality test of `_calc_critical_preservation` (and of
`_extract_critical_facts`, which drops the contradiction disjunct). -/
def isCriticalChunk (c : Chunk) : Bool :=
  c.chunk_type == ChunkType.critical || c.contains_exceptions
    || c.contains_risks || c.contains_contradictions

/-- Model of `_calc_critical_preservation`: explicit counter loop over the
zipped chunk/summary pairs, then the guarded division. -/
def calcCriticalPreservation (chunks : List Chunk)
    (summaries : List SummaryResult) : ℚ :=
  let counts := (chunks.zip summaries).foldl
    (fun (tc : Nat × Nat) p =>
      if isCriticalChunk p.1 then
        (tc.1 + 1, if (3 : ℚ) / 10 ≤ p.2.confidence then tc.2 + 1 else tc.2)
      else tc)
    (0, 0)
  if 0 < counts.1 then (counts.2 : ℚ) / (counts.1 : ℚ) else 1

/-- Modelled from the spec: `critical_preservation_rate = preserved /
total_critical` where a critical chunk counts as preserved when its paired
summary confidence is at least 0.3 (inclusive boundary); defaults to 1.0
when there are no critical chunks. -/
def specCriticalPreservationRate (chunks : List Chunk)
    (summaries : List SummaryResult) : ℚ :=
  let pairs := (chunks.zip summaries).filter (fun p => isCriticalChunk p.1)
  let preserved := (pairs.filter (fun p => decide ((3 : ℚ) / 10 ≤ p.2.confidence))).length
  if 0 < pairs.length then (preserved : ℚ) / (pairs.length : ℚ) else 1

/-- Python float division, raising `ZeroDivisionError` on a zero
denominator. -/
def pyDiv (a b : ℚ) : Option ℚ := if b = 0 then none else some (a / b)

/-- Model of `_calc_info_loss`.  The `final_ratio` division by the document
total word count is unguarded in the source, hence the `Option`; the mean
confidence and the critical-preservation rate are guarded. -/
def calcInfoLoss (docWords totalWords : Nat) (chunks : List Chunk)
    (chunkSummaries : List SummaryResult) : Option ℚ :=
  (pyDiv (docWords : ℚ) (totalWords : ℚ)).map (fun final_ratio_q =>
    let avg_conf : ℚ :=
      if chunkSummaries ≠ [] then
        (chunkSummaries.map (fun s => s.confidence)).sum / (chunkSummaries.length : ℚ)
      else 0
    let crit_rate := calcCriticalPreservation chunks chunkSummaries
    max 0 (min 1 ((1 - final_ratio_q) * (3 / 10) + (1 - avg_conf) * (4 / 10)
      + (1 - crit_rate) * (3 / 10))))

/-- The four per-level `compression_ratio` values of `_build_report`: raw
(constant 1.0), chunk (UNGUARDED division by the raw word count), section
and document (both guarded with a zero default). -/
def buildReportRatios (originalWords chunkTotal secTotal docWords : Nat) :
    Option (ℚ × ℚ × ℚ × ℚ) :=
  (pyDiv (chunkTotal : ℚ) (originalWords : ℚ)).map (fun chunkRatio =>
    (1, chunkRatio,
     if 0 < chunkTotal then (secTotal : ℚ) / (chunkTotal : ℚ) else 0,
     if 0 < secTotal then (docWords : ℚ) / (secTotal : ℚ) else 0))

/-- The final compression-ratio computation of `compress_document`
(`summary_words / original_stats["words"]`), also unguarded. -/
def compressFinalRatioQ (docWords totalWords : Nat) : Option ℚ :=
  pyDiv (docWords : ℚ) (totalWords : ℚ)

/-! ## The summarizer's regexes as written (doubled backslashes)
Every backslash inside the summarizer's regex literals is doubled in the
source file: `r'(?<=[.!?])\\s+'` at line 340, `r'\\w+'` at lines 350 and
356, and all five `critical_patterns` at lines 63-67 (the file even writes
plain strings as `"...\\n"`).  In a Python raw string `\\` matches one
literal backslash, so `\\b`, `\\d`, `\\s`, `\\w` match a backslash followed
by that letter, not the regex class.  The definitions below model those
regexes exactly as written; the single-backslash reading modelled above is
the one the spec describes, and the claims proved with it are bounds that
hold for either behaviour of the summarizer. -/

/-- Absence of the backslash character in a character list. -/
def noBackslash (l : List Char) : Bool := l.all (fun c => !(c == '\\'))

/-- Tokens of `re.findall(r'\\w+', text.lower())` as written: each match is
one literal backslash followed by a maximal nonempty run of letters w.
First argument is the scan state: `none` outside a candidate match,
`some []` right after a bare backslash, `some acc` inside a match with
`acc` the reversed w-run seen so far. -/
def litTokensAux : Option (List Char) → List Char → List String
  | none, [] => []
  | some [], [] => []
  | some (a :: acc), [] => [String.mk ('\\' :: (a :: acc).reverse)]
  | none, c :: r =>
    if c == '\\' then litTokensAux (some []) r else litTokensAux none r
  | some [], c :: r =>
    if c == 'w' then litTokensAux (some ['w']) r
    else if c == '\\' then litTokensAux (some []) r
    else litTokensAux none r
  | some (a :: acc), c :: r =>
    if c == 'w' then litTokensAux (some (c :: a :: acc)) r
    else
      String.mk ('\\' :: (a :: acc).reverse)
        :: (if c == '\\' then litTokensAux (some []) r else litTokensAux none r)

/-- Word tokens of the lines 350 and 356 findall as written. -/
def litWordTokens (s : String) : List String := litTokensAux none (lowerChars s)

/-- Frequency sum of a sentence over the text's token list
(`word_freq.get(word, 0)` summed over the sentence's findall tokens). -/
def litFreqSum (textTokens : List String) (sent : String) : Nat :=
  ((litWordTokens sent).map (fun w => textTokens.count w)).sum

/-- Closing `\\b` of the number and date patterns as written: a literal
backslash followed by the letter b. -/
def litNumEnd : List Char → Bool
  | '\\' :: 'b' :: _ => true
  | _ => false

/-- Unit alternatives of the number pattern, lower-cased for IGNORECASE
(`days?` contributes the two alternatives days and day, and so on).  The
`\\$` alternative consumes a backslash and then asserts end of input, after
which the closing `\\b` can never match, so it contributes no match and is
omitted. -/
def litUnitWords : List String :=
  ["days", "day", "hours", "hour", "minutes", "minute", "years", "year",
   "€", "£", "%", "gb", "mb", "tb"]

/-- Optional unit alternative followed by the closing `\\b`. -/
def litUnitThenEnd (l : List Char) : Bool :=
  litNumEnd l
    || litUnitWords.any (fun u => u.data.isPrefixOf l && litNumEnd (l.drop u.data.length))

/-- The `\\s*` of the number pattern as written — a literal backslash then
a run of letters s (no unit alternative begins with s, so taking the
maximal run loses no match) — followed by the optional unit and `\\b`. -/
def litNumSlashS : List Char → Bool
  | '\\' :: r => litUnitThenEnd (r.dropWhile (fun c => c = 's'))
  | _ => false

/-- After the integer part of the number pattern: the optional
`(?:\\.\\d+)?` as written is a backslash, any character other than a
newline (the unescaped dot), a backslash and a nonempty run of letters d;
both readings of the optional group are tried, as regex backtracking
does. -/
def litNumAfterDigits (l : List Char) : Bool :=
  (match l with
   | '\\' :: c :: '\\' :: 'd' :: r =>
     !(c == '\n') && litNumSlashS (r.dropWhile (fun c => c = 'd'))
   | _ => false)
    || litNumSlashS l

/-- Anchored match of the number pattern as written:
`\\b\\d+(?:\\.\\d+)?\\s*(?:days?|...)?\\b` is backslash-b, a backslash and
a nonempty run of letters d, then the decimal, spacing, unit and closing
parts. -/
def litNumAt : List Char → Bool
  | '\\' :: 'b' :: '\\' :: 'd' :: r => litNumAfterDigits (r.dropWhile (fun c => c = 'd'))
  | _ => false

/-- Existence of a match at some start position (`re.search`). -/
def scanAny (p : List Char → Bool) : List Char → Bool
  | [] => p []
  | c :: r => p (c :: r) || scanAny p r

/-- Pattern `number` as written (line 63), searched over the lower-cased
text since the pattern carries IGNORECASE. -/
def litPatNumber (s : String) : Bool := scanAny litNumAt (lowerChars s)

/-- Separator class dash-or-slash of the date pattern (a real character
class: only the backslashes of the source line are doubled). -/
def litDateSep (c : Char) : Bool := c = '-' || c = '/'

/-- Anchored match of the first date alternative as written — the source
regex backslash-b, `\\d` with counter 1-2, the dash-or-slash class, `\\d`
with counter 1-2, the dash-or-slash class, `\\d` with counter 2-4, then
backslash-b — reads as: backslash-b, a backslash and one or two letters d,
a dash or slash, a backslash and one or two d, a dash or slash, a
backslash and two to four d, backslash-b.  A d-run longer than the counter
allows leaves a letter d facing the next literal at every backtracking
depth, so the run lengths are checked exactly. -/
def litDateAlt1At : List Char → Bool
  | '\\' :: 'b' :: '\\' :: r1 =>
    (let ds1 := r1.takeWhile (fun c => c = 'd')
     let t1 := r1.dropWhile (fun c => c = 'd')
     (ds1.length = 1 || ds1.length = 2) &&
       match t1 with
       | s1 :: '\\' :: r2 =>
         litDateSep s1 &&
           (let ds2 := r2.takeWhile (fun c => c = 'd')
            let t2 := r2.dropWhile (fun c => c = 'd')
            (ds2.length = 1 || ds2.length = 2) &&
              match t2 with
              | s2 :: '\\' :: r3 =>
                litDateSep s2 &&
                  (let ds3 := r3.takeWhile (fun c => c = 'd')
                   (2 ≤ ds3.length && ds3.length ≤ 4) &&
                     litNumEnd (r3.dropWhile (fun c => c = 'd')))
              | _ => false)
       | _ => false)
  | _ => false

/-- Year tail of the month date alternative as written: `\\s*\\d{4}` is a
backslash, a run of letters s, a backslash and at least four letters d
(nothing follows the counter, so a longer run is harmless). -/
def litMonthYear : List Char → Bool
  | '\\' :: r =>
    (match r.dropWhile (fun c => c = 's') with
     | '\\' :: r2 => 4 ≤ (r2.takeWhile (fun c => c = 'd')).length
     | _ => false)
  | _ => false

/-- Optional comma then the year tail (`,?\\s*\\d{4}`). -/
def litMonthAfterDay (l : List Char) : Bool :=
  litMonthYear l || (match l with | ',' :: r => litMonthYear r | _ => false)

/-- After the month word: `[a-z]*\\s+\\d{1,2}` as written is a run of
lower-case letters, a backslash and a nonempty run of letters s, a
backslash and one or two letters d, then the comma-year tail. -/
def litMonthTail (l : List Char) : Bool :=
  match l.dropWhile (fun c => 'a' ≤ c && c ≤ 'z') with
  | '\\' :: r1 =>
    (1 ≤ (r1.takeWhile (fun c => c = 's')).length) &&
      (match r1.dropWhile (fun c => c = 's') with
       | '\\' :: r2 =>
         (let nd := (r2.takeWhile (fun c => c = 'd')).length
          (nd = 1 || nd = 2) && litMonthAfterDay (r2.dropWhile (fun c => c = 'd')))
       | _ => false)
  | _ => false

/-- Anchored match of the second date alternative as written:
`(?:Jan|...|Dec)[a-z]*\\s+\\d{1,2},?\\s*\\d{4}` over the lower-cased
text. -/
def litDateAlt2At (l : List Char) : Bool :=
  monthPrefixes.any (fun m => m.data.isPrefixOf l && litMonthTail (l.drop m.data.length))

/-- Pattern `date` as written (line 64): either alternative matches at some
position of the lower-cased text. -/
def litPatDate (s : String) : Bool :=
  scanAny (fun l => litDateAlt1At l || litDateAlt2At l) (lowerChars s)

/-- Case-insensitive containment of a literal needle: once the doubled
`\\b` is read as a backslash and a letter b, the keyword patterns are plain
alternations of literal strings. -/
def litContainsCI (s needle : String) : Bool :=
  strContains (String.mk (lowerChars s)) needle

/-- Pattern `exception` as written (line 65):
`\\b(?:EXCEPTION|unless|except|only if|however|but|although)\\b` matches
the literal text backslash-b, keyword, backslash-b. -/
def litPatException (s : String) : Bool :=
  ["\\bexception\\b", "\\bunless\\b", "\\bexcept\\b", "\\bonly if\\b",
   "\\bhowever\\b", "\\bbut\\b", "\\balthough\\b"].any (litContainsCI s)

/-- Pattern `risk` as written (line 66). -/
def litPatRisk (s : String) : Bool :=
  ["\\brisk\\b", "\\bwarning\\b", "\\balert\\b", "\\bcaution\\b",
   "\\bdanger\\b", "\\bmust\\b", "\\brequired\\b", "\\bprohibited\\b"].any
    (litContainsCI s)

/-- Pattern `threshold` as written (line 67). -/
def litPatThreshold (s : String) : Bool :=
  ["\\bminimum\\b", "\\bmaximum\\b", "\\bthreshold\\b", "\\blimit\\b",
   "\\bat least\\b", "\\bat most\\b", "\\bno more than\\b",
   "\\bno less than\\b"].any (litContainsCI s)

/-- The `critical_patterns` table as written: five entries in insertion
order, no contradiction entry. -/
def litCriticalPatterns : List (String → Bool) :=
  [litPatNumber, litPatDate, litPatException, litPatRisk, litPatThreshold]

/-- Sentence score of `_extractive_summarize` (lines 354-361) with the
regexes as written: frequency sum of the sentence's backslash-w tokens,
tripled when one of the five patterns as written matches the sentence. -/
def litSentenceScore (textTokens : List String) (sent : String) : Nat :=
  let base := litFreqSum textTokens sent
  if litCriticalPatterns.any (fun p => p sent) then base * 3 else base

/-- Head test for the `s+` that follows the literal backslash in the
separator of line 340 as written. -/
def headIsS : List Char → Bool
  | 's' :: _ => true
  | _ => false

/-- Splitter of line 340 as written: `re.split(r'(?<=[.!?])\\s+', text)`
splits at a literal backslash followed by a nonempty run of letters s,
with a character from `[.!?]` immediately before the backslash (this
pattern carries no IGNORECASE flag, so only lower-case s). -/
def litSentSplitAux : List Char → List Char → List (List Char)
  | acc, [] => [acc.reverse]
  | acc, c :: cs =>
    if c == '\\' && sentEndPrev acc && headIsS cs then
      acc.reverse :: litSentSplitAux [] (cs.dropWhile (fun c => c = 's'))
    else litSentSplitAux (c :: acc) cs
termination_by _ l => l.length
decreasing_by
  · simp only [List.length_cons]
    have hle : ∀ (l : List Char), (l.dropWhile (fun c => c = 's')).length ≤ l.length := by
      intro l
      induction l with
      | nil => simp
      | cons d ds ih =>
        by_cases h : d = 's'
        · simp only [List.dropWhile_cons, h, decide_True, if_true]
          exact Nat.le_succ_of_le ih
        · simp [List.dropWhile_cons, h]
    exact Nat.lt_succ_of_le (hle cs)
  · simp

def litSentSplit (s : String) : List String :=
  (litSentSplitAux [] s.data).map String.mk

/-- Score triples of `_extractive_summarize` with the regexes as
written. -/
def litScoreSentences (text : String) : List (String × Nat × Nat) :=
  (litSentSplit text).map
    (fun s => (s, litSentenceScore (litWordTokens text) s, wordCount s))

def litSortedScores (text : String) : List (String × Nat × Nat) :=
  stableSortBy (fun a b => Nat.ble b.2.1 a.2.1) (litScoreSentences text)

def litSelectSentences (text : String) (targetWords targetSentences : Nat) :
    List String :=
  (((litSortedScores text).foldl
      (fun (st : List String × Nat) x =>
        if st.2 + x.2.2 ≤ targetWords ∧ st.1.length < targetSentences
        then (x.1 :: st.1, st.2 + x.2.2) else st)
      ([], 0)).1).reverse

def litForcedSelection (text : String) : List String :=
  ((litSortedScores text).take
      (max 1 (ratFloorNat (((litSentSplit text).length : ℚ) * (25 / 100))))).map
    (fun x => x.1)

/-- Model of `_extractive_summarize` with the regexes as written. -/
def litExtractiveSummarize (text : String) (r : ℚ) : String :=
  let sentences := litSentSplit text
  if sentences.length ≤ 3 then text
  else
    let summary := joinSpace (byPosSort text
      (litSelectSentences text (ratFloorNat ((wordCount text : ℚ) * r))
        (max 1 (ratFloorNat ((sentences.length : ℚ) * r)))))
    if wordCount text ≤ wordCount summary then
      joinSpace (byPosSort text (litForcedSelection text))
    else summary

/-! ## Spec-side definitions used to state the claims -/

/-- Modelled from the spec: the frequency score of a sentence is the sum of
its case-folded words' frequencies over the whole text. -/
def specFreqScore (text sent : String) : Nat :=
  ((lowerTokens sent).map (fun w => (lowerTokens text).count w)).sum

/-- The pattern set the claim names for extractive scoring: number, date,
exception, risk, contradiction, threshold, read as matching real numbers,
dates and keywords (the spec's single-backslash reading).  The
contradiction entry is the chunker's contradiction pattern — the only such
pattern in the source; the summarizer's own table has no sixth entry. -/
def claimedSixPatterns : List (String → Bool) := criticalPatterns ++ [patContradiction]

/-- Generic clamp over ℚ. -/
def clampQ (x lo hi : ℚ) : ℚ := max lo (min hi x)

/-- Modelled from the spec: the document-level extraction ratio
`clamp((doc_max_length - 10) / combined_words, 0.10, 0.30)`. -/
def specTargetRatioQ (origWC maxLength : Nat) : ℚ :=
  clampQ (((maxLength : ℚ) - 10) / (origWC : ℚ)) (1 / 10) (3 / 10)

/-- Forget only the `section_id` field of a summary. -/
def eraseSectionId (s : SummaryResult) : SummaryResult := { s with section_id := none }

/-! ## Concrete instances used by witnesses and counterexamples -/

def c2Chunk : ChunkDict :=
  { text := "A short clause of ten words for the witness test."
    chunk_id := 7
    page_number := 1
    chunk_type := "standard"
    section_id := some "2"
    contains_numbers := false
    contains_dates := false
    contains_exceptions := false
    contains_risks := false
    contains_contradictions := false
    header_level := 0 }

/-- A plain sentence containing a decimal number and no backslash
character. -/
def c5Sentence : String := "The penalty rate is 3.5 percent each year."

def c6Text : String := joinSpace (List.replicate 1000 "word")

def c6Sections : List SummaryResult :=
  [{ defaultSummaryResult with summary_text := c6Text }]

def c7Chunk : Chunk :=
  { chunk_id := 0
    text := "t"
    page_number := 1
    word_count := 1
    chunk_type := ChunkType.critical
    section_id := none
    contains_numbers := false
    contains_dates := false
    contains_exceptions := false
    contains_risks := false
    contains_contradictions := false
    header_level := 0 }

def c7Summary : SummaryResult := { defaultSummaryResult with confidence := 3 / 10 }

def c8Chunk : Chunk :=
  { chunk_id := 4
    text := "section body"
    page_number := 2
    word_count := 2
    chunk_type := ChunkType.standard
    section_id := some "3"
    contains_numbers := false
    contains_dates := false
    contains_exceptions := false
    contains_risks := false
    contains_contradictions := false
    header_level := 0 }

def c8Summary : SummaryResult :=
  { defaultSummaryResult with
    summary_text := "the single chunk summary text"
    source_chunks := [4] }

def c9Chunk : Chunk :=
  { chunk_id := 0
    text := "body"
    page_number := 1
    word_count := 1
    chunk_type := ChunkType.standard
    section_id := none
    contains_numbers := false
    contains_dates := false
    contains_exceptions := false
    contains_risks := false
    contains_contradictions := false
    header_level := 0 }

def c9Summary : SummaryResult :=
  { defaultSummaryResult with summary_text := "hello world", source_chunks := [0] }

def c10Cfg : ChunkerConfig := { min_words := 75, max_words := 300, overlap_words := 20 }

def c10Init : ChunkerAcc := { chunks := [], chunk_id := 0, current_section := none }

def c10Page : PageD :=
  { page_number := 1, text := "Hello world this is a tiny page residual text." }

def c10Next : PageD :=
  { page_number := 2, text := "Second page content here is also small." }

/-! ## Theorems -/

/-! ## Token-count lemmas -/

theorem tokensAux_append_sep (sep : Char → Bool) (w : Char) (hw : sep w = true) :
    ∀ (a : List Char) (acc b : List Char),
      (tokensAux sep acc (a ++ w :: b)).length
        = (tokensAux sep acc a).length + (tokensAux sep [] b).length := by
  intro a
  induction a with
  | nil =>
    intro acc b
    cases h : acc.isEmpty <;> (simp [tokensAux, hw, h]; try omega)
  | cons c a ih =>
    intro acc b
    by_cases hc : sep c = true
    · cases h : acc.isEmpty <;> (simp [tokensAux, hc, h, ih []]; try omega)
    · simp only [List.cons_append, tokensAux, hc, if_false, Bool.false_eq_true]
      exact ih (c :: acc) b

theorem tokensAux_dropWhile_ws :
    ∀ l : List Char, tokensAux wsSep [] (l.dropWhile Char.isWhitespace)
      = tokensAux wsSep [] l := by
  intro l
  induction l with
  | nil => simp
  | cons c cs ih =>
    by_cases h : c.isWhitespace
    · simpa [List.dropWhile_cons, h, tokensAux, wsSep] using ih
    · simp [List.dropWhile_cons, h]

theorem wcList_dropWhile (l : List Char) :
    wcList (l.dropWhile Char.isWhitespace) = wcList l := by
  unfold wcList
  rw [tokensAux_dropWhile_ws]

theorem wcList_append_sep (w : Char) (hw : wsSep w = true) (a b : List Char) :
    wcList (a ++ w :: b) = wcList a + wcList b := by
  unfold wcList
  exact tokensAux_append_sep wsSep w hw a [] b

/-- Splitting into sentences partitions the whitespace-separated words:
the word counts of the pieces sum to the word count of the text. -/
theorem sentSplitAux_wordCount :
    ∀ (acc l : List Char),
      ((sentSplitAux acc l).map wcList).sum = wcList (acc.reverse ++ l) := by
  intro acc l
  induction acc, l using sentSplitAux.induct with
  | case1 acc => simp [sentSplitAux, wcList]
  | case2 acc c cs hsplit ih =>
    rw [sentSplitAux, if_pos hsplit]
    simp only [List.map_cons, List.sum_cons]
    have hw : wsSep c = true := by
      simp only [Bool.and_eq_true] at hsplit
      exact hsplit.1
    rw [ih]
    simp only [List.reverse_nil, List.nil_append]
    rw [wcList_dropWhile, wcList_append_sep c hw]
  | case3 acc c cs hsplit ih =>
    rw [sentSplitAux, if_neg hsplit, ih]
    simp [List.reverse_cons, List.append_assoc]

theorem sentSplit_wordCount (s : String) :
    ((sentSplit s).map wordCount).sum = wordCount s := by
  have h := sentSplitAux_wordCount [] s.data
  simpa [sentSplit, wordCount, wcList, Function.comp, List.map_map] using h

/-- Joining with a single space: word counts add up. -/
theorem joinWithList_space_wordCount :
    ∀ ls : List (List Char), wcList (joinWithList [' '] ls) = (ls.map wcList).sum := by
  intro ls
  induction ls with
  | nil => simp [joinWithList, wcList, tokensAux]
  | cons x t ih =>
    cases t with
    | nil => simp [joinWithList]
    | cons y t' =>
      have hstep : joinWithList [' '] (x :: y :: t')
          = x ++ ' ' :: joinWithList [' '] (y :: t') := by
        simp [joinWithList]
      rw [hstep, wcList_append_sep ' ' (by simp [wsSep]) x _, ih]
      simp

theorem joinSpace_wordCount (xs : List String) :
    wordCount (joinSpace xs) = (xs.map wordCount).sum := by
  have h := joinWithList_space_wordCount (xs.map String.data)
  simpa [joinSpace, wordCount, wcList, Function.comp, List.map_map] using h

theorem insSorted_perm (r : α → α → Bool) (a : α) :
    ∀ l : List α, List.Perm (insSorted r a l) (a :: l) := by
  intro l
  induction l with
  | nil => simp [insSorted]
  | cons b t ih =>
    by_cases h : r b a = true
    · simp only [insSorted, h, if_true]
      exact (ih.cons b).trans (List.Perm.swap a b t)
    · simp [insSorted, h]

theorem stableSortBy_foldl_perm (r : α → α → Bool) :
    ∀ (l acc : List α),
      List.Perm (l.foldl (fun acc x => insSorted r x acc) acc) (acc ++ l) := by
  intro l
  induction l with
  | nil => simp
  | cons x t ih =>
    intro acc
    have h1 : List.Perm (t.foldl (fun acc x => insSorted r x acc) (insSorted r x acc))
        (insSorted r x acc ++ t) := ih (insSorted r x acc)
    have h2 : List.Perm (insSorted r x acc ++ t) ((x :: acc) ++ t) :=
      (insSorted_perm r x acc).append_right t
    have h3 : List.Perm ((x :: acc) ++ t) (acc ++ x :: t) := by
      simpa using (@List.perm_middle _ x acc t).symm
    simpa [List.foldl_cons] using (h1.trans h2).trans h3

theorem stableSortBy_perm (r : α → α → Bool) (l : List α) :
    List.Perm (stableSortBy r l) l := by
  simpa [stableSortBy] using stableSortBy_foldl_perm r l []

theorem sublist_sum_le {l₁ l₂ : List Nat} (h : List.Sublist l₁ l₂) : l₁.sum ≤ l₂.sum := by
  induction h with
  | slnil => simp
  | cons a _ ih => simpa using le_trans ih (Nat.le_add_left _ _)
  | cons₂ a _ ih => simpa using Nat.add_le_add_left ih a

/-! ### The extractive engine never expands its input -/

theorem byPosSort_wordCount_sum (text : String) (l : List String) :
    ((byPosSort text l).map wordCount).sum = (l.map wordCount).sum :=
  ((stableSortBy_perm _ l).map wordCount).sum_eq

theorem sortedScores_wordCount_sum (text : String) :
    ((sortedScores text).map (fun x => wordCount x.1)).sum = wordCount text := by
  have hperm := (stableSortBy_perm (fun a b : String × Nat × Nat => Nat.ble b.2.1 a.2.1)
      (scoreSentences text)).map (fun x => wordCount x.1)
  rw [sortedScores, hperm.sum_eq, scoreSentences, List.map_map]
  have : ((fun x : String × Nat × Nat => wordCount x.1) ∘
      fun s => (s, sentenceScore (lowerTokens text) s, wordCount s)) = wordCount := rfl
  rw [this, sentSplit_wordCount]

theorem forced_wordCount_le (text : String) :
    wordCount (joinSpace (byPosSort text (forcedSelection text))) ≤ wordCount text := by
  rw [joinSpace_wordCount, byPosSort_wordCount_sum]
  calc ((forcedSelection text).map wordCount).sum
      = (((sortedScores text).take _).map (fun x => wordCount x.1)).sum := by
        rw [forcedSelection, List.map_map]; rfl
    _ ≤ ((sortedScores text).map (fun x => wordCount x.1)).sum :=
        sublist_sum_le (((sortedScores text).take_sublist _).map _)
    _ = wordCount text := sortedScores_wordCount_sum text

/-- The function `_extractive_summarize` never increases the word count. -/
theorem extractiveSummarize_wordCount_le (text : String) (r : ℚ) :
    wordCount (extractiveSummarize text r) ≤ wordCount text := by
  rw [extractiveSummarize]
  by_cases h3 : (sentSplit text).length ≤ 3
  · simp [h3]
  · simp only [h3, if_false]
    split
    · exact forced_wordCount_le text
    · omega

/-! ### Chunk-summary invariants -/

theorem summarizeChunk_original_words (chunk : ChunkDict) (strat0 : Strategy) :
    (summarizeChunk chunk strat0).original_words = wordCount chunk.text := by
  rw [summarizeChunk]
  split <;> rfl

theorem safety_guard_wordCount_le (text s0 : String) :
    wordCount (if wordCount text ≤ wordCount s0
        then extractiveSummarize text (25 / 100) else s0)
      ≤ wordCount text := by
  split
  · exact extractiveSummarize_wordCount_le _ _
  · omega

/-- The no-expansion invariant: every produced summary has at most as many
words as its source text. -/
theorem summarizeChunk_words_le (chunk : ChunkDict) (strat0 : Strategy) :
    (summarizeChunk chunk strat0).summary_words
      ≤ (summarizeChunk chunk strat0).original_words := by
  rw [summarizeChunk]
  split
  · exact le_refl _
  · exact safety_guard_wordCount_le chunk.text _

/-- The deliberate pass-through: texts under 50 words are returned verbatim
with ratio 1 and confidence 1. -/
theorem summarizeChunk_passthrough (chunk : ChunkDict) (strat0 : Strategy)
    (h : wordCount chunk.text < 50) :
    (summarizeChunk chunk strat0).summary_text = chunk.text
      ∧ (summarizeChunk chunk strat0).summary_words = wordCount chunk.text
      ∧ (summarizeChunk chunk strat0).compression_ratio_q = 1
      ∧ (summarizeChunk chunk strat0).confidence = 1 := by
  rw [summarizeChunk, if_pos h]
  exact ⟨rfl, rfl, rfl, rfl⟩

theorem calcConfidence_mem_unit (o s : String) (ci : List String) :
    0 ≤ calcConfidence o s ci ∧ calcConfidence o s ci ≤ 1 := by
  unfold calcConfidence
  refine ⟨le_max_left 0 _, max_le (by norm_num) (min_le_left 1 _)⟩

theorem summarizeChunk_confidence_mem_unit (chunk : ChunkDict) (strat0 : Strategy) :
    0 ≤ (summarizeChunk chunk strat0).confidence
      ∧ (summarizeChunk chunk strat0).confidence ≤ 1 := by
  rw [summarizeChunk]
  split
  · exact ⟨by norm_num, by norm_num⟩
  · exact calcConfidence_mem_unit _ _ _

theorem mkDocSummary_words (t : String) (w o : Nat) :
    (mkDocSummary t w o).summary_words = w := rfl

theorem docSummaryGuards_words_le (sectionSummaries : List SummaryResult)
    (maxLength owc : Nat) (summary0 : String) :
    (docSummaryGuards sectionSummaries maxLength owc summary0).summary_words
      ≤ maxLength := by
  rw [docSummaryGuards]
  split
  · exact List.length_take_le _ _
  · split
    · dsimp only
      repeat' split
      all_goals simp only [mkDocSummary_words]
      all_goals omega
    · simp only [mkDocSummary_words]
      omega

/-- Hard invariant: whatever branch is taken, the document summary's word
count never exceeds the configured maximum. -/
theorem createDocumentSummary_words_le (sectionSummaries : List SummaryResult)
    (maxLength : Nat) :
    (createDocumentSummary sectionSummaries maxLength).summary_words ≤ maxLength := by
  rw [createDocumentSummary]
  split
  · next h => exact h.1
  · exact docSummaryGuards_words_le _ _ _ _

/-! ### Lemmas about the section-aggregation heap -/

/-- A field untouched by a heap update is unchanged at every index. -/
theorem set_getD_field {β : Type} (l : List SummaryResult) (i : Nat) (a : SummaryResult)
    (f : SummaryResult → β) (hf : f a = f (l.getD i defaultSummaryResult)) (k : Nat) :
    f ((l.set i a).getD k defaultSummaryResult) = f (l.getD k defaultSummaryResult) := by
  rw [List.getD_eq_getElem?_getD, List.getD_eq_getElem?_getD, List.getElem?_set]
  by_cases hk : i = k
  · subst hk
    by_cases hlt : i < l.length
    · simp only [hlt, if_true, if_pos rfl, Option.getD_some]
      rw [hf, List.getD_eq_getElem?_getD]
    · simp [hlt, List.getElem?_eq_none (Nat.le_of_not_lt hlt)]
  · simp [hk]

/-- Any per-summary field left alone by the `section_id` relabeling is
preserved across the whole group pass, at every heap index. -/
theorem runGroups_heap_field {β : Type} (f : SummaryResult → β)
    (hf : ∀ (s : SummaryResult) (sid : String),
      f { s with section_id := some sid } = f s) :
    ∀ (gs : List (String × List Nat)) (heap : List SummaryResult) (k : Nat),
      f ((runGroups heap gs).2.getD k defaultSummaryResult)
        = f (heap.getD k defaultSummaryResult) := by
  intro gs
  induction gs with
  | nil => intro heap k; rfl
  | cons g gs ih =>
    intro heap k
    obtain ⟨sid, idxs⟩ := g
    match idxs with
    | [i] =>
      show f ((runGroups (heap.set i _) gs).2.getD k _) = _
      rw [ih]
      exact set_getD_field heap i _ f (hf _ sid) k
    | [] =>
      show f ((runGroups heap gs).2.getD k _) = _
      exact ih heap k
    | i :: j :: rest =>
      show f ((runGroups heap gs).2.getD k _) = _
      exact ih heap k

theorem runGroups_heap_length :
    ∀ (gs : List (String × List Nat)) (heap : List SummaryResult),
      (runGroups heap gs).2.length = heap.length := by
  intro gs
  induction gs with
  | nil => intro heap; rfl
  | cons g gs ih =>
    intro heap
    obtain ⟨sid, idxs⟩ := g
    match idxs with
    | [i] =>
      show (runGroups (heap.set i _) gs).2.length = _
      rw [ih, List.length_set]
    | [] => exact ih heap
    | i :: j :: rest => exact ih heap

/-- A single-member group yields, at its position in the section list, the
reused chunk summary: same `summary_text`, relabeled `section_id`. -/
theorem runGroups_singleton_section :
    ∀ (gs : List (String × List Nat)) (heap : List SummaryResult)
      (j : Nat) (sid : String) (i : Nat),
      gs.get? j = some (sid, [i]) →
      ∃ s, (runGroups heap gs).1.get? j = some s
        ∧ s.summary_text = (heap.getD i defaultSummaryResult).summary_text
        ∧ s.section_id = some sid := by
  intro gs
  induction gs with
  | nil => intro heap j sid i hj; simp at hj
  | cons g gs ih =>
    intro heap j sid i hj
    obtain ⟨sid₀, idxs₀⟩ := g
    cases j with
    | zero =>
      simp only [List.get?] at hj
      obtain ⟨rfl, rfl⟩ : sid₀ = sid ∧ idxs₀ = [i] := by
        injection hj with h
        injection h with h1 h2
        exact ⟨h1, h2⟩
      refine ⟨_, rfl, ?_, rfl⟩
      rfl
    | succ j =>
      simp only [List.get?] at hj
      match hidx : idxs₀ with
      | [i₀] =>
        have hstep := ih (heap.set i₀
          { heap.getD i₀ defaultSummaryResult with section_id := some sid₀ }) j sid i hj
        obtain ⟨s, hs, htext, hsid⟩ := hstep
        refine ⟨s, hs, ?_, hsid⟩
        rw [htext]
        exact set_getD_field heap i₀
          { heap.getD i₀ defaultSummaryResult with section_id := some sid₀ }
          (fun s => s.summary_text) rfl i
      | [] => exact ih heap j sid i hj
      | i₀ :: j₀ :: rest₀ => exact ih heap j sid i hj

/-! ### Lemmas about the quality metrics -/

theorem critCounts_foldl (l : List (Chunk × SummaryResult)) :
    ∀ a b : Nat,
      (l.foldl
        (fun (tc : Nat × Nat) p =>
          if isCriticalChunk p.1 then
            (tc.1 + 1, if (3 : ℚ) / 10 ≤ p.2.confidence then tc.2 + 1 else tc.2)
          else tc)
        (a, b))
      = (a + (l.filter (fun p => isCriticalChunk p.1)).length,
         b + ((l.filter (fun p => isCriticalChunk p.1)).filter
            (fun p => decide ((3 : ℚ) / 10 ≤ p.2.confidence))).length) := by
  induction l with
  | nil => simp
  | cons p t ih =>
    intro a b
    by_cases hc : isCriticalChunk p.1
    · by_cases hp : (3 : ℚ) / 10 ≤ p.2.confidence <;>
      · simp only [List.foldl_cons, List.filter_cons, hc, hp, if_true, if_false,
          ih, Prod.ext_iff, List.length_cons, decide_eq_true_eq]
        simp [hp]
        try omega
    · simp [List.foldl_cons, List.filter_cons, hc, ih]

theorem calcCriticalPreservation_eq_spec (chunks : List Chunk)
    (summaries : List SummaryResult) :
    calcCriticalPreservation chunks summaries
      = specCriticalPreservationRate chunks summaries := by
  unfold calcCriticalPreservation specCriticalPreservationRate
  rw [critCounts_foldl]
  simp

theorem calcCriticalPreservation_mem_unit (chunks : List Chunk)
    (summaries : List SummaryResult) :
    0 ≤ calcCriticalPreservation chunks summaries
      ∧ calcCriticalPreservation chunks summaries ≤ 1 := by
  rw [calcCriticalPreservation_eq_spec]
  unfold specCriticalPreservationRate
  dsimp only
  split
  · next h =>
    constructor
    · positivity
    · rw [div_le_one (by exact_mod_cast h)]
      exact_mod_cast List.length_filter_le _ _
  · norm_num

theorem calcInfoLoss_mem_unit (docWords totalWords : Nat) (chunks : List Chunk)
    (chunkSummaries : List SummaryResult) (v : ℚ)
    (h : calcInfoLoss docWords totalWords chunks chunkSummaries = some v) :
    0 ≤ v ∧ v ≤ 1 := by
  unfold calcInfoLoss pyDiv at h
  by_cases hz : (totalWords : ℚ) = 0
  · simp [hz] at h
  · rw [if_neg hz, Option.map_some', Option.some.injEq] at h
    refine ⟨?_, ?_⟩
    · rw [← h]; exact le_max_left 0 _
    · rw [← h]; exact max_le (by norm_num) (min_le_left 1 _)

theorem docSummaryGuards_confidence (sectionSummaries : List SummaryResult)
    (maxLength owc : Nat) (summary0 : String) :
    (docSummaryGuards sectionSummaries maxLength owc summary0).confidence = 85 / 100 := by
  rw [docSummaryGuards]
  split
  · rfl
  · split
    · dsimp only
      repeat' split
      all_goals rfl
    · rfl

theorem createDocumentSummary_confidence (sectionSummaries : List SummaryResult)
    (maxLength : Nat) :
    (createDocumentSummary sectionSummaries maxLength).confidence = 85 / 100 := by
  rw [createDocumentSummary]
  split
  · rfl
  · exact docSummaryGuards_confidence _ _ _ _

/-! ### Lemmas about the summarizer regexes as written -/

theorem toLower_ne_backslash (c : Char) (h : c ≠ '\\') : Char.toLower c ≠ '\\' := by
  intro hEq
  unfold Char.toLower at hEq
  rw [show (let n := c.toNat;
      if n ≥ 65 ∧ n ≤ 90 then Char.ofNat (n + 32) else c)
    = if c.toNat ≥ 65 ∧ c.toNat ≤ 90 then Char.ofNat (c.toNat + 32) else c from rfl] at hEq
  split at hEq
  · next hc =>
    have hvalid : (c.toNat + 32).isValidChar := by
      left
      omega
    have hv : (Char.ofNat (c.toNat + 32)).toNat = 92 := by rw [hEq]; rfl
    rw [Char.ofNat, dif_pos hvalid] at hv
    have hh : (Char.ofNatAux (c.toNat + 32) hvalid).toNat = c.toNat + 32 := rfl
    rw [hh] at hv
    omega
  · exact h hEq

theorem lowerChars_no_backslash (s : String) (h : noBackslash s.data = true) :
    noBackslash (lowerChars s) = true := by
  unfold noBackslash at h ⊢
  rw [lowerChars, List.all_map]
  rw [List.all_eq_true] at h ⊢
  intro c hc
  have h1 := h c hc
  simp only [Function.comp_apply, Bool.not_eq_true', beq_eq_false_iff_ne, ne_eq] at h1 ⊢
  exact toLower_ne_backslash c h1

theorem litTokensAux_none_of_no_backslash :
    ∀ l : List Char, noBackslash l = true → litTokensAux none l = [] := by
  intro l
  induction l with
  | nil => intro _; rfl
  | cons c r ih =>
    intro h
    unfold noBackslash at h
    rw [List.all_cons, Bool.and_eq_true] at h
    have hc : (c == '\\') = false := by
      have := h.1
      simpa using this
    rw [litTokensAux, hc]
    simp only [Bool.false_eq_true, if_false]
    exact ih h.2

theorem litWordTokens_nil (s : String) (h : noBackslash s.data = true) :
    litWordTokens s = [] :=
  litTokensAux_none_of_no_backslash (lowerChars s) (lowerChars_no_backslash s h)

theorem litSentenceScore_zero (textTokens : List String) (sent : String)
    (h : noBackslash sent.data = true) :
    litSentenceScore textTokens sent = 0 := by
  unfold litSentenceScore litFreqSum
  rw [litWordTokens_nil sent h]
  simp

theorem litSentSplitAux_no_backslash :
    ∀ (l acc : List Char), noBackslash l = true →
      litSentSplitAux acc l = [acc.reverse ++ l] := by
  intro l
  induction l with
  | nil => intro acc _; simp [litSentSplitAux]
  | cons c cs ih =>
    intro acc h
    unfold noBackslash at h
    rw [List.all_cons, Bool.and_eq_true] at h
    have hc : (c == '\\') = false := by
      have := h.1
      simpa using this
    rw [litSentSplitAux, hc]
    simp only [Bool.false_and, Bool.false_eq_true, if_false]
    rw [ih (c :: acc) h.2]
    simp

theorem litSentSplit_singleton (s : String) (h : noBackslash s.data = true) :
    litSentSplit s = [s] := by
  unfold litSentSplit
  rw [litSentSplitAux_no_backslash s.data [] h]
  simp

theorem litExtractive_no_split (text : String) (h : noBackslash text.data = true)
    (r : ℚ) : litExtractiveSummarize text r = text := by
  unfold litExtractiveSummarize
  rw [litSentSplit_singleton text h]
  simp

/-! ## The claims -/

/-- C1: for every run of the document-level aggregation with configuration
`doc_max_length`, the final document summary's word count is at most
`doc_max_length`, in every branch (pass-through under budget, extractive
compression, hard truncation, and post-expansion re-truncation). -/
theorem claim_C1_doc_summary_le_max (sectionSummaries : List SummaryResult)
    (maxLength : Nat) :
    (createDocumentSummary sectionSummaries maxLength).summary_words ≤ maxLength :=
  createDocumentSummary_words_le sectionSummaries maxLength

/-- C2: every chunk summary satisfies `summary_words ≤ original_words`, and
a chunk of fewer than 50 words passes through verbatim with compression
ratio 1 and confidence 1. -/
theorem claim_C2_no_expansion_and_passthrough (chunk : ChunkDict) (strat0 : Strategy) :
    (summarizeChunk chunk strat0).summary_words
        ≤ (summarizeChunk chunk strat0).original_words
      ∧ (wordCount chunk.text < 50 →
          (summarizeChunk chunk strat0).summary_text = chunk.text
            ∧ (summarizeChunk chunk strat0).compression_ratio_q = 1
            ∧ (summarizeChunk chunk strat0).confidence = 1) :=
  ⟨summarizeChunk_words_le chunk strat0,
    fun h =>
      let p := summarizeChunk_passthrough chunk strat0 h
      ⟨p.1, p.2.2.1, p.2.2.2⟩⟩

theorem claim_C2_witness :
    (summarizeChunk c2Chunk Strategy.HYBRID).summary_words
        ≤ (summarizeChunk c2Chunk Strategy.HYBRID).original_words
      ∧ (summarizeChunk c2Chunk Strategy.HYBRID).summary_text = c2Chunk.text
      ∧ (summarizeChunk c2Chunk Strategy.HYBRID).compression_ratio_q = 1
      ∧ (summarizeChunk c2Chunk Strategy.HYBRID).confidence = 1 :=
  ⟨(claim_C2_no_expansion_and_passthrough c2Chunk Strategy.HYBRID).1,
    (claim_C2_no_expansion_and_passthrough c2Chunk Strategy.HYBRID).2 (by decide)⟩

/-- C3: the claim says every ratio against a possibly-zero denominator is
guarded; in the source the chunk-level `compression_ratio` of
`_build_report`, the `final_ratio` of `_calc_info_loss`, and the final
ratio print of `compress_document` all divide by the document's total word
count without a guard, so a zero-word document raises instead of defaulting
— the three computations are `none` there. -/
theorem claim_C3_zero_word_document_raises :
    buildReportRatios 0 0 0 0 = none
      ∧ calcInfoLoss 0 0 [] [] = none
      ∧ compressFinalRatioQ 0 0 = none :=
  ⟨rfl, rfl, rfl⟩

/-- C4: every computed confidence value, the critical preservation rate and
the information-loss score lie in the closed unit interval. -/
theorem claim_C4_metrics_in_unit_interval :
    (∀ (o s : String) (ci : List String),
        0 ≤ calcConfidence o s ci ∧ calcConfidence o s ci ≤ 1)
      ∧ (∀ (chunk : ChunkDict) (strat0 : Strategy),
          0 ≤ (summarizeChunk chunk strat0).confidence
            ∧ (summarizeChunk chunk strat0).confidence ≤ 1)
      ∧ (∀ (chunks : List Chunk) (summaries : List SummaryResult),
          0 ≤ calcCriticalPreservation chunks summaries
            ∧ calcCriticalPreservation chunks summaries ≤ 1)
      ∧ (∀ (docWords totalWords : Nat) (chunks : List Chunk)
            (chunkSummaries : List SummaryResult) (v : ℚ),
          calcInfoLoss docWords totalWords chunks chunkSummaries = some v →
            0 ≤ v ∧ v ≤ 1)
      ∧ (∀ (sectionSummaries : List SummaryResult) (maxLength : Nat),
          0 ≤ (createDocumentSummary sectionSummaries maxLength).confidence
            ∧ (createDocumentSummary sectionSummaries maxLength).confidence ≤ 1) :=
  ⟨calcConfidence_mem_unit,
   summarizeChunk_confidence_mem_unit,
   calcCriticalPreservation_mem_unit,
   calcInfoLoss_mem_unit,
   fun sectionSummaries maxLength => by
     rw [createDocumentSummary_confidence]
     norm_num⟩

theorem claim_C4_witness : 0 ≤ (7 : ℚ) / 10 ∧ (7 : ℚ) / 10 ≤ 1 :=
  claim_C4_metrics_in_unit_interval.2.2.2.1 0 100 [] [] (7 / 10)
    (by norm_num [calcInfoLoss, pyDiv, calcCriticalPreservation])

/-- C5 counterexample: the claim predicts that the sentence "The penalty
rate is 3.5 percent each year." — it contains a decimal number, so the
claimed number pattern matches it — is scored as 3 times the sum of its
words' case-folded frequencies (3 × 9 = 27); the code as written computes
0, because `re.findall(r'\\w+', ...)` with its doubled backslash finds no
token in backslash-free text and none of the five patterns as written can
match it. -/
theorem claim_C5_counterexample :
    litSentenceScore (litWordTokens c5Sentence) c5Sentence
      ≠ (if claimedSixPatterns.any (fun p => p c5Sentence) then 3 else 1)
          * specFreqScore c5Sentence c5Sentence := by
  decide

/-- C5 (amended): with the regexes exactly as written in the source (every
backslash doubled), a sentence's extractive score is the sum of the text
frequencies of its backslash-w tokens, tripled exactly when one of the
FIVE critical patterns as written (number, date, exception, risk,
threshold — there is no contradiction entry) matches the sentence; every
token of `re.findall(r'\\w+', ...)` contains a literal backslash, so on a
backslash-free sentence the score is 0 and no boost is observable, and on
backslash-free text the line-340 splitter finds no separator, so
`_extractive_summarize` returns its input unchanged and never scores at
all. -/
theorem claim_C5_literal_scoring :
    (∀ (textTokens : List String) (sent : String),
        litSentenceScore textTokens sent
          = (if litCriticalPatterns.any (fun p => p sent) then 3 else 1)
              * litFreqSum textTokens sent)
      ∧ litCriticalPatterns.length = 5
      ∧ (∀ (textTokens : List String) (sent : String),
          noBackslash sent.data = true → litSentenceScore textTokens sent = 0)
      ∧ (∀ text : String, noBackslash text.data = true →
          ∀ r : ℚ, litExtractiveSummarize text r = text) := by
  refine ⟨?_, rfl, ?_, ?_⟩
  · intro textTokens sent
    unfold litSentenceScore
    split
    · exact (Nat.mul_comm _ 3).symm ▸ rfl
    · exact (Nat.one_mul _).symm
  · intro textTokens sent h
    exact litSentenceScore_zero textTokens sent h
  · intro text h r
    exact litExtractive_no_split text h r

/-- C5 amended-theorem witness at the concrete backslash-free sentence. -/
theorem claim_C5_amended_witness :
    litSentenceScore (litWordTokens c5Sentence) c5Sentence = 0
      ∧ litExtractiveSummarize c5Sentence (35 / 100) = c5Sentence :=
  ⟨claim_C5_literal_scoring.2.2.1 (litWordTokens c5Sentence) c5Sentence (by decide),
   claim_C5_literal_scoring.2.2.2 c5Sentence (by decide) (35 / 100)⟩

/-- C6: when the combined section text exceeds the budget the extraction
ratio is the clamp of `(doc_max_length - 10) / combined_words` to
`[0.10, 0.30]`; for 1000 combined words and budget 300 it is 0.29, and the
resulting document summary stays within 300 words. -/
theorem claim_C6_target_ratio_clamp :
    (∀ origWC maxLength : Nat,
        docTargetRatioQ origWC maxLength = specTargetRatioQ origWC maxLength)
      ∧ docTargetRatioQ 1000 300 = 29 / 100
      ∧ (∀ sectionSummaries : List SummaryResult,
          wordCount (joinSpace (sectionSummaries.map (fun s => s.summary_text))) = 1000 →
            (createDocumentSummary sectionSummaries 300).summary_words ≤ 300) :=
  ⟨fun _ _ => rfl,
   by rw [docTargetRatioQ]; norm_num [min_def, max_def],
   fun sectionSummaries _ => createDocumentSummary_words_le sectionSummaries 300⟩

theorem claim_C6_witness :
    docTargetRatioQ 1000 300 = 29 / 100
      ∧ (createDocumentSummary c6Sections 300).summary_words ≤ 300 :=
  ⟨claim_C6_target_ratio_clamp.2.1,
    claim_C6_target_ratio_clamp.2.2 c6Sections (by
      show wordCount c6Text = 1000
      rw [c6Text, joinSpace_wordCount, List.map_replicate]
      have h1 : wordCount "word" = 1 := by decide
      rw [h1, List.sum_replicate, smul_eq_mul, mul_one])⟩

/-- C7: the critical preservation rate is preserved over total with the
0.3 boundary counted as preserved (inclusive), and defaults to 1 with no
critical chunks; a critical chunk whose summary confidence is exactly 0.3
yields rate 1. -/
theorem claim_C7_critical_preservation_rate :
    (∀ (chunks : List Chunk) (summaries : List SummaryResult),
        calcCriticalPreservation chunks summaries
          = specCriticalPreservationRate chunks summaries)
      ∧ calcCriticalPreservation [c7Chunk] [c7Summary] = 1
      ∧ calcCriticalPreservation [] [] = 1 :=
  ⟨calcCriticalPreservation_eq_spec,
   by simp [calcCriticalPreservation, isCriticalChunk, c7Chunk, c7Summary,
        defaultSummaryResult],
   by simp [calcCriticalPreservation]⟩

/-- C8: a section group holding exactly one chunk summary yields, at its
position, a section summary whose text is that chunk summary's text
verbatim, relabeled with the section id. -/
theorem claim_C8_singleton_section_verbatim (chunks : List Chunk)
    (cs : List SummaryResult) (j : Nat) (sid : String) (i : Nat)
    (h : (sectionGroups chunks cs).get? j = some (sid, [i])) :
    ∃ s, (createSectionSummaries chunks cs).1.get? j = some s
      ∧ s.summary_text = (cs.getD i defaultSummaryResult).summary_text
      ∧ s.section_id = some sid :=
  runGroups_singleton_section (sectionGroups chunks cs) cs j sid i h

theorem claim_C8_witness :
    ∃ s, (createSectionSummaries [c8Chunk] [c8Summary]).1.get? 0 = some s
      ∧ s.summary_text = ([c8Summary].getD 0 defaultSummaryResult).summary_text
      ∧ s.section_id = some "3" :=
  claim_C8_singleton_section_verbatim [c8Chunk] [c8Summary] 0 "3" 0 rfl

/-- C9 counterexample: section aggregation does mutate a received
chunk-level summary — reusing the single member of a group rewrites its
`section_id` in place (here from `none` to "uncategorized"), so the
chunk-summary list after aggregation differs from the one handed over. -/
theorem claim_C9_counterexample :
    (createSectionSummaries [c9Chunk] [c9Summary]).2 ≠ [c9Summary] := by
  intro h
  have h2 := congrArg (fun l => (l.getD 0 defaultSummaryResult).section_id) h
  simp only at h2
  rw [show ((createSectionSummaries [c9Chunk] [c9Summary]).2.getD 0
      defaultSummaryResult).section_id = some "uncategorized" from rfl] at h2
  simp [c9Summary, defaultSummaryResult] at h2

/-- C9 (amended): the only in-place modification section aggregation makes
to the chunk summaries it receives is the `section_id` relabeling of
single-member groups — every other field of every chunk summary is
unchanged, and the list keeps its length. -/
theorem claim_C9_only_section_id_mutated (chunks : List Chunk)
    (cs : List SummaryResult) :
    (createSectionSummaries chunks cs).2.length = cs.length
      ∧ ∀ k, eraseSectionId
            ((createSectionSummaries chunks cs).2.getD k defaultSummaryResult)
          = eraseSectionId (cs.getD k defaultSummaryResult) :=
  ⟨runGroups_heap_length (sectionGroups chunks cs) cs,
   fun k => runGroups_heap_field eraseSectionId (fun _ _ => rfl)
     (sectionGroups chunks cs) cs k⟩

/-- C10: when a page's paragraph loop ends with a buffer of fewer than 30
words, the end-of-page flush emits nothing (the state is unchanged), and
the processing of any following page starts from that same state — the
residual text is silently discarded, never carried into the next page's
buffer. -/
theorem claim_C10_small_residual_discarded (cfg : ChunkerConfig)
    (st : ChunkerAcc) (page : PageD)
    (h : wordCount (pageResidual cfg st page) < 30) :
    (processPage cfg st page).1 = (pageInner cfg st page).1
      ∧ (processPage cfg st page).2.1 = pageResidual cfg st page
      ∧ ∀ next : PageD,
          processPage cfg (processPage cfg st page).1 next
            = processPage cfg (pageInner cfg st page).1 next := by
  unfold pageResidual at h
  have key : processPage cfg st page
      = ((pageInner cfg st page).1, (pageInner cfg st page).2.1,
         (pageInner cfg st page).2.2) := by
    rw [processPage]
    rw [if_neg (fun hc => absurd hc.2 (by omega))]
  exact ⟨by rw [key], by rw [key]; rfl, fun next => by rw [key]⟩

theorem claim_C10_witness :
    (processPage c10Cfg c10Init c10Page).1 = (pageInner c10Cfg c10Init c10Page).1
      ∧ processPage c10Cfg (processPage c10Cfg c10Init c10Page).1 c10Next
          = processPage c10Cfg (pageInner c10Cfg c10Init c10Page).1 c10Next :=
  ⟨(claim_C10_small_residual_discarded c10Cfg c10Init c10Page (by decide)).1,
   (claim_C10_small_residual_discarded c10Cfg c10Init c10Page (by decide)).2.2 c10Next⟩

end DataForge
